import Mathlib

/-!
Verification development for the magic-wormhole core: the rendezvous
websocket client state machine (core/src/rendezvous.rs) and the
port-forwarding session protocol (src/forwarding.rs).

The Rust code is embedded shallowly: each event method of the rendezvous
machine becomes a pure function returning `Option (state, actions)`, where
`none` models a panic (the code's way of reporting a programming error);
the forwarding session handlers become pure step functions over an explicit
state, with the transit sink modelled as a list of sent messages and local
socket outcomes (dial success, write success) passed in as oracle booleans.
-/

namespace Wormhole

/-! ## Rendezvous machine (core/src/rendezvous.rs) -/

/-- The `State` enum of the rendezvous machine. -/
inductive RState
  | Idle
  | Connecting
  | Connected
  | Waiting
  | Disconnecting
  | Stopped
deriving DecidableEq, Repr

/-- The bind JSON object built by `connection_made`:
`json!("type": "bind", "appid": appid, "side": "side1")`.
We keep the object structured; the code serializes it to a JSON string. -/
structure BindJson where
  /-- the "type" field of the JSON object -/
  ty : String
  appid : String
  side : String
deriving DecidableEq, Repr

/-- The `Action` side-effect enum emitted by the rendezvous machine.
Websocket and timer handles are modelled by their numeric ids
(`WSHandle::new(n)` / `TimerHandle::new(n)`); the retry delay `f32` is
modelled as a rational. -/
inductive Action
  | WebSocketOpen (handle : ℕ) (url : String)
  | WebSocketSendMessage (handle : ℕ) (msg : BindJson)
  | WebSocketClose (handle : ℕ)
  | StartTimer (handle : ℕ) (seconds : ℚ)
  | CancelTimer (handle : ℕ)
deriving DecidableEq, Repr

/-- The `Rendezvous` struct. -/
structure Rendezvous where
  wsh : ℕ
  relay_url : String
  retry_timer : ℚ
  appid : String
  state : RState
  connected_at_least_once : Bool
  reconnect_timer : Option ℕ
deriving DecidableEq, Repr

/-- Models `str::to_lowercase` as characterwise lowercasing (identical to
the Rust function on the ASCII urls this protocol exchanges). -/
def strToLower (s : String) : String := ⟨s.data.map Char.toLower⟩

/-- `create(appid, relay_url, retry_timer)`: fresh machine in `Idle` with
websocket handle `WSHandle::new(1)` and no reconnect timer. -/
def create (appid relay_url : String) (retry_timer : ℚ) : Rendezvous :=
  { wsh := 1
    relay_url := relay_url
    retry_timer := retry_timer
    appid := appid
    state := RState.Idle
    connected_at_least_once := false
    reconnect_timer := none }

/-- `Rendezvous::start`: from `Idle` emit `WebSocketOpen(wsh, url.to_lowercase())`
and go to `Connecting`; from any other state the code panics (modelled `none`). -/
def Rendezvous.start (r : Rendezvous) : Option (Rendezvous × List Action) :=
  match r.state with
  | RState.Idle =>
      some ({ r with state := RState.Connecting },
        [Action.WebSocketOpen r.wsh (strToLower r.relay_url)])
  | _ => none

/-- The bind message sent on entering `Connected`. -/
def bindMessage (appid : String) : BindJson :=
  { ty := "bind", appid := appid, side := "side1" }

/-- `Rendezvous::connection_made`: from `Connecting` emit the bind message and
go to `Connected`; otherwise panic. The handle argument is ignored by the code. -/
def Rendezvous.connection_made (r : Rendezvous) (_handle : ℕ) :
    Option (Rendezvous × List Action) :=
  match r.state with
  | RState.Connecting =>
      some ({ r with state := RState.Connected },
        [Action.WebSocketSendMessage r.wsh (bindMessage r.appid)])
  | _ => none

/-- `Rendezvous::connection_lost`: from `Connecting` or `Connected` store a new
timer handle (`TimerHandle::new(2)`), emit `StartTimer` and go to `Waiting`;
from `Disconnecting` go to `Stopped` with no action; otherwise panic. -/
def Rendezvous.connection_lost (r : Rendezvous) (_handle : ℕ) :
    Option (Rendezvous × List Action) :=
  match r.state with
  | RState.Connecting | RState.Connected =>
      some ({ r with state := RState.Waiting, reconnect_timer := some 2 },
        [Action.StartTimer 2 r.retry_timer])
  | RState.Disconnecting =>
      some ({ r with state := RState.Stopped }, [])
  | _ => none

/-- `Rendezvous::timer_expired`: from `Waiting` emit
`WebSocketOpen(WSHandle::new(2), url.to_lowercase())` and go to `Connecting`;
otherwise panic. -/
def Rendezvous.timer_expired (r : Rendezvous) (_handle : ℕ) :
    Option (Rendezvous × List Action) :=
  match r.state with
  | RState.Waiting =>
      some ({ r with state := RState.Connecting },
        [Action.WebSocketOpen 2 (strToLower r.relay_url)])
  | _ => none

/-- `Rendezvous::stop`: total over states; the only way it can panic is the
`reconnect_timer.unwrap()` in the `Waiting` branch (modelled `none`).
Note the `Disconnecting` branch stays in `Disconnecting` with no action. -/
def Rendezvous.stop (r : Rendezvous) : Option (Rendezvous × List Action) :=
  match r.state with
  | RState.Idle | RState.Stopped =>
      some ({ r with state := RState.Stopped }, [])
  | RState.Connecting | RState.Connected =>
      some ({ r with state := RState.Disconnecting },
        [Action.WebSocketClose r.wsh])
  | RState.Waiting =>
      match r.reconnect_timer with
      | some th => some ({ r with state := RState.Stopped }, [Action.CancelTimer th])
      | none => none
  | RState.Disconnecting =>
      some ({ r with state := RState.Disconnecting }, [])

/-- The events the I/O layer feeds into the machine. -/
inductive REvent
  | start
  | connection_made (handle : ℕ)
  | connection_lost (handle : ℕ)
  | timer_expired (handle : ℕ)
  | stop
deriving DecidableEq, Repr

/-- Dispatch one event to the corresponding method. -/
def handleEvent (r : Rendezvous) : REvent → Option (Rendezvous × List Action)
  | REvent.start => r.start
  | REvent.connection_made h => r.connection_made h
  | REvent.connection_lost h => r.connection_lost h
  | REvent.timer_expired h => r.timer_expired h
  | REvent.stop => r.stop

/-- Run a sequence of events, collecting all emitted actions in order;
`none` if any event panics. -/
def runEvents (r : Rendezvous) : List REvent → Option (Rendezvous × List Action)
  | [] => some (r, [])
  | e :: es =>
      match handleEvent r e with
      | none => none
      | some (r', acts) =>
          match runEvents r' es with
          | none => none
          | some (rf, rest) => some (rf, acts ++ rest)

/-- The (state, event) pairs listed in the transition diagram of
specification section 4.1. -/
def listed (s : RState) (e : REvent) : Bool :=
  match s, e with
  | RState.Idle, REvent.start => true
  | RState.Connecting, REvent.connection_made _ => true
  | RState.Connecting, REvent.connection_lost _ => true
  | RState.Connected, REvent.connection_lost _ => true
  | RState.Disconnecting, REvent.connection_lost _ => true
  | RState.Waiting, REvent.timer_expired _ => true
  | RState.Waiting, REvent.stop => true
  | RState.Connecting, REvent.stop => true
  | RState.Connected, REvent.stop => true
  | RState.Idle, REvent.stop => true
  | RState.Stopped, REvent.stop => true
  | _, _ => false

/-- Reachable rendezvous machine states: a fresh `create` plus any number of
successfully handled events. -/
inductive ReachR : Rendezvous → Prop
  | init (a u : String) (q : ℚ) : ReachR (create a u q)
  | step (r : Rendezvous) (e : REvent) (r' : Rendezvous) (acts : List Action) :
      ReachR r → handleEvent r e = some (r', acts) → ReachR r'

/-- Handles closed by processing an event: `connection_lost h` closes the
websocket `h` that was lost; every other event closes nothing by itself. -/
def eventClose (S : Finset ℕ) : REvent → Finset ℕ
  | REvent.connection_lost h => S.erase h
  | _ => S

/-- Fold the open-websocket accounting over an emitted action list:
`WebSocketOpen h` opens `h`, `WebSocketClose h` closes `h`. -/
def actionsOpen (S : Finset ℕ) (acts : List Action) : Finset ℕ :=
  acts.foldl
    (fun T a =>
      match a with
      | Action.WebSocketOpen h _ => insert h T
      | Action.WebSocketClose h => T.erase h
      | _ => T)
    S

/-- Reachable (machine, open-handle-set) configurations. The I/O layer is
faithful: a `connection_lost h` event only refers to a currently open
websocket `h`. -/
inductive ReachOpen : Rendezvous → Finset ℕ → Prop
  | init (a u : String) (q : ℚ) : ReachOpen (create a u q) ∅
  | step (r : Rendezvous) (S : Finset ℕ) (e : REvent) (r' : Rendezvous)
      (acts : List Action) :
      ReachOpen r S →
      (∀ h, e = REvent.connection_lost h → h ∈ S) →
      handleEvent r e = some (r', acts) →
      ReachOpen r' (actionsOpen (eventClose S e) acts)

/-! ## Peer message codec (src/forwarding.rs, `PeerMessage`)

`ser_msgpack` / `de_msgpack` use rmp-serde with struct-as-map and string
variants. We embed the codec at the MessagePack *value* level: `MP` is the
msgpack data model (the byte encoding of an `MP` value is a bijection owned
by the rmp library). Externally tagged enums encode a struct or newtype
variant as a one-entry map keyed by the kebab-cased variant name, and a
unit variant as a bare string; `Vec<u8>` goes through serde as a sequence
of integers. -/

/-- MessagePack values (the subset this protocol can exchange). -/
inductive MP
  | str (s : String)
  | uint (n : ℕ)
  | nil
  | boolean (b : Bool)
  | arr (xs : List MP)
  | map (kvs : List (MP × MP))

/-- The `PeerMessage` enum. `transit::Hints` is external to this repository
and is carried verbatim on the wire, so the hints blob is modelled by its
msgpack image. Payload bytes are naturals below 256. -/
inductive PeerMessage
  | Offer (addresses : List String)
  | Connect (target : String) (connection_id : ℕ)
  | Disconnect (connection_id : ℕ)
  | Forward (connection_id : ℕ) (payload : List ℕ)
  | Close
  | Error (text : String)
  | Transit (hints : MP)
  | Unknown

/-- `PeerMessage::ser_msgpack`: externally tagged, kebab-case variant and
field names, struct variants as maps, fields in declaration order. -/
def PeerMessage.ser_msgpack : PeerMessage → MP
  | PeerMessage.Offer addresses =>
      MP.map [(MP.str "offer",
        MP.map [(MP.str "addresses", MP.arr (addresses.map MP.str))])]
  | PeerMessage.Connect target connection_id =>
      MP.map [(MP.str "connect",
        MP.map [(MP.str "target", MP.str target),
                (MP.str "connection-id", MP.uint connection_id)])]
  | PeerMessage.Disconnect connection_id =>
      MP.map [(MP.str "disconnect",
        MP.map [(MP.str "connection-id", MP.uint connection_id)])]
  | PeerMessage.Forward connection_id payload =>
      MP.map [(MP.str "forward",
        MP.map [(MP.str "connection-id", MP.uint connection_id),
                (MP.str "payload", MP.arr (payload.map MP.uint))])]
  | PeerMessage.Close => MP.str "close"
  | PeerMessage.Error text => MP.map [(MP.str "error", MP.str text)]
  | PeerMessage.Transit hints =>
      MP.map [(MP.str "transit", MP.map [(MP.str "hints", hints)])]
  | PeerMessage.Unknown => MP.str "unknown"

/-- The variant tags the `Deserialize` derive recognizes. Any other tag hits
the `#[serde(other)] Unknown` arm. -/
def recognizedTags : List String :=
  ["offer", "connect", "disconnect", "forward", "close", "error", "transit"]

/-- Decode one address (a msgpack string). -/
def decodeAddress : MP → Except String String
  | MP.str s => Except.ok s
  | _ => Except.error "invalid type for address"

/-- Decode one payload byte (an integer below 256). -/
def decodeByte : MP → Except String ℕ
  | MP.uint n => if n < 256 then Except.ok n else Except.error "byte out of range"
  | _ => Except.error "invalid type for byte"

/-- Decode a connection id (a u64). -/
def decodeU64 : MP → Except String ℕ
  | MP.uint n => Except.ok n
  | _ => Except.error "invalid type for u64"

/-- Look up a struct field by name in a msgpack map (serde matches keys as
strings). -/
def mpLookup : List (MP × MP) → String → Option MP
  | [], _ => none
  | (MP.str k, v) :: rest, field => if k = field then some v else mpLookup rest field
  | _ :: rest, field => mpLookup rest field

/-- The `#[serde(other)] Unknown` arm in the externally tagged map form:
`Unknown` is a unit variant, so serde decodes the tagged content as unit,
which only succeeds on nil — the same content check the recognized unit
variant `close` gets. -/
def decodeOtherContent : MP → Except String PeerMessage
  | MP.nil => Except.ok PeerMessage.Unknown
  | _ => Except.error "invalid type for unit variant"

/-- Decode the content of a tagged variant given its tag. An unrecognized
tag selects the `#[serde(other)] Unknown` arm, which is decoded as a unit
variant (content must be nil). -/
def decodeTagged (tag : String) (content : MP) : Except String PeerMessage :=
  if tag = "offer" then
    match content with
    | MP.map kvs =>
        match mpLookup kvs "addresses" with
        | some (MP.arr xs) => (xs.mapM decodeAddress).map PeerMessage.Offer
        | some _ => Except.error "invalid type for addresses"
        | none => Except.error "missing field addresses"
    | _ => Except.error "invalid type for offer"
  else if tag = "connect" then
    match content with
    | MP.map kvs =>
        match mpLookup kvs "target", mpLookup kvs "connection-id" with
        | some (MP.str t), some idv =>
            (decodeU64 idv).map (PeerMessage.Connect t)
        | some _, some _ => Except.error "invalid type for target"
        | _, _ => Except.error "missing field in connect"
    | _ => Except.error "invalid type for connect"
  else if tag = "disconnect" then
    match content with
    | MP.map kvs =>
        match mpLookup kvs "connection-id" with
        | some idv => (decodeU64 idv).map PeerMessage.Disconnect
        | none => Except.error "missing field connection-id"
    | _ => Except.error "invalid type for disconnect"
  else if tag = "forward" then
    match content with
    | MP.map kvs =>
        match mpLookup kvs "connection-id", mpLookup kvs "payload" with
        | some idv, some (MP.arr xs) =>
            match decodeU64 idv, xs.mapM decodeByte with
            | Except.ok cid, Except.ok payload =>
                Except.ok (PeerMessage.Forward cid payload)
            | Except.error e, _ => Except.error e
            | _, Except.error e => Except.error e
        | some _, some _ => Except.error "invalid type for payload"
        | _, _ => Except.error "missing field in forward"
    | _ => Except.error "invalid type for forward"
  else if tag = "close" then
    match content with
    | MP.nil => Except.ok PeerMessage.Close
    | _ => Except.error "invalid type for close"
  else if tag = "error" then
    match content with
    | MP.str s => Except.ok (PeerMessage.Error s)
    | _ => Except.error "invalid type for error"
  else if tag = "transit" then
    match content with
    | MP.map kvs =>
        match mpLookup kvs "hints" with
        | some v => Except.ok (PeerMessage.Transit v)
        | none => Except.error "missing field hints"
    | _ => Except.error "invalid type for transit"
  else
    decodeOtherContent content

/-- `PeerMessage::de_msgpack`: an externally tagged enum accepts a bare
variant identifier (unit-variant form) or a one-entry map keyed by the
identifier. serde identifiers are strings (the kebab-case names) or
integers (the declaration index). A recognized unit tag (`close`) decodes
to the variant; an unknown identifier selects the `#[serde(other)]
Unknown` arm, itself a unit variant: in the bare form it succeeds, in the
map form its content must decode as unit (nil). Everything else is a
decode error. -/
def PeerMessage.de_msgpack : MP → Except String PeerMessage
  | MP.str tag =>
      if tag = "close" then Except.ok PeerMessage.Close
      else if tag ∈ recognizedTags then
        Except.error "expected variant content"
      else Except.ok PeerMessage.Unknown
  | MP.uint idx =>
      match recognizedTags.get? idx with
      | some tag =>
          if tag = "close" then Except.ok PeerMessage.Close
          else Except.error "expected variant content"
      | none => Except.ok PeerMessage.Unknown
  | MP.map [(MP.str tag, content)] => decodeTagged tag content
  | MP.map [(MP.uint idx, content)] =>
      match recognizedTags.get? idx with
      | some tag => decodeTagged tag content
      | none => decodeOtherContent content
  | MP.map _ => Except.error "invalid map-form variant"
  | _ => Except.error "invalid type for variant identifier"

/-! ## Forwarding errors (src/forwarding.rs, `ForwardingError`) -/

/-- The `ForwardingError` enum. Wrapped source errors are modelled by their
message strings; the external wormhole/transit/io error payloads carry no
information the claims need. -/
inductive ForwardingError
  | AckError
  | PeerError (text : String)
  | ProtocolJson (e : String)
  | ProtocolMsgpack (e : String)
  | Protocol (text : String)
  | ProtocolUnexpectedMessage (expected : String) (got : PeerMessage)
  | Wormhole
  | TransitConnect
  | TransitErr
  | IOError

/-- The protocol-error kinds of the error taxonomy (spec section 7):
parse errors and semantic protocol violations, as opposed to peer-reported
errors, transit failures and local I/O failures. -/
def ForwardingError.isProtocol : ForwardingError → Bool
  | ForwardingError.ProtocolJson _ => true
  | ForwardingError.ProtocolMsgpack _ => true
  | ForwardingError.Protocol _ => true
  | ForwardingError.ProtocolUnexpectedMessage _ _ => true
  | _ => false

/-- The `Display` rendering of an error (`format!("{}", error)`), used when
echoing an `Error` message to the peer. The exact text is immaterial to the
claims; what matters is that it is a pure function of the error. -/
def ForwardingError.fmt : ForwardingError → String
  | ForwardingError.AckError => "Transfer was not acknowledged by peer"
  | ForwardingError.PeerError t => "Something went wrong on the other side: " ++ t
  | ForwardingError.ProtocolJson e => "Corrupt JSON message received: " ++ e
  | ForwardingError.ProtocolMsgpack e => "Corrupt Msgpack message received: " ++ e
  | ForwardingError.Protocol t => "Protocol error: " ++ t
  | ForwardingError.ProtocolUnexpectedMessage e _ =>
      "Unexpected message (protocol error): Expected " ++ e
  | ForwardingError.Wormhole => "Wormhole connection error"
  | ForwardingError.TransitConnect => "Error while establishing transit connection"
  | ForwardingError.TransitErr => "Transit error"
  | ForwardingError.IOError => "IO error"

/-! ## Forwarder role, serve side (src/forwarding.rs, `ForwardingServe`)

The session loop owns the state between awaits, so each loop iteration is a
pure step. The transit sink is modelled by the list of `PeerMessage`s sent
during the step (sink sends are collected, never fail); local socket
effects are oracle booleans: `writeOk` is the outcome of
`connection.write_all(payload)`, `dialOk` of `TcpStream::connect`. Dialed
address strings are recorded for inspection. -/

/-- The `ForwardingServe` struct: the targets map (association list keyed by
the address string), the ids with a live connection (worker + write half
abstracted away), and the burned-id set `historic_connections`. -/
structure ForwardingServe where
  targets : List (String × (Option String × ℕ))
  connections : Finset ℕ
  historic_connections : Finset ℕ

/-- `HashMap::get` over the modelled targets map. -/
def lookupAssoc (ts : List (String × (Option String × ℕ))) (k : String) :
    Option (Option String × ℕ) :=
  (ts.find? (fun p => p.1 = k)).map (fun p => p.2)

/-- Outcome of one serve-side handler: continue with a new state, break the
loop successfully (`Close`), fail with an error, or panic.  `sent` collects
messages pushed into the transit sink during the step and `dialed` the
local addresses passed to `TcpStream::connect`. -/
inductive ServeStep
  | next (st : ForwardingServe) (sent : List PeerMessage) (dialed : List String)
  | closed (sent : List PeerMessage)
  | failed (e : ForwardingError) (sent : List PeerMessage)
  | panicked

/-- Messages a step pushed into the transit sink. -/
def ServeStep.sent : ServeStep → List PeerMessage
  | ServeStep.next _ s _ => s
  | ServeStep.closed s => s
  | ServeStep.failed _ s => s
  | ServeStep.panicked => []

/-- Addresses a step dialed locally. -/
def ServeStep.dialed : ServeStep → List String
  | ServeStep.next _ _ d => d
  | _ => []

/-- Whether a step failed with a protocol-kind error. -/
def ServeStep.protocolError : ServeStep → Bool
  | ServeStep.failed e _ => e.isProtocol
  | _ => false

/-- `ForwardingServe::remove_connection`: optionally tell the peer
(`Disconnect` is sent before the lookup), then remove the live connection;
a dead id still in `historic_connections` is a benign race, an unknown id
is a protocol error. Returns (messages sent, resulting state or error). -/
def ForwardingServe.remove_connection (st : ForwardingServe) (connection_id : ℕ)
    (tell_peer : Bool) :
    List PeerMessage × Except ForwardingError ForwardingServe :=
  ((if tell_peer then [PeerMessage.Disconnect connection_id] else []),
   if connection_id ∈ st.connections then
     Except.ok { st with connections := st.connections.erase connection_id }
   else if connection_id ∈ st.historic_connections then
     Except.ok st
   else
     Except.error (ForwardingError.Protocol "Connection not found"))

/-- `ForwardingServe::forward`: write the payload to the live connection
(`writeOk` is the outcome of `write_all`; on failure the connection is torn
down with `tell_peer = true`); a dead historic id is ignored; an unknown id
is a protocol error. -/
def ForwardingServe.forward (st : ForwardingServe) (connection_id : ℕ)
    (writeOk : Bool) :
    List PeerMessage × Except ForwardingError ForwardingServe :=
  if connection_id ∈ st.connections then
    if writeOk then ([], Except.ok st)
    else st.remove_connection connection_id true
  else if connection_id ∈ st.historic_connections then
    ([], Except.ok st)
  else
    ([], Except.error (ForwardingError.Protocol "Connection not found"))

/-- `ForwardingServe::spawn_connection`: a live duplicate id is a protocol
error; then the target entry is looked up (`unwrap`: `none` would panic,
but the caller checked membership); a host-less target dials
`[::1]:port`, otherwise the target string itself is dialed. On dial failure
(`dialOk = false`) a `Disconnect` is sent and the step succeeds without a
new connection. -/
def ForwardingServe.spawn_connection (st : ForwardingServe) (target : String)
    (connection_id : ℕ) (dialOk : Bool) : ServeStep :=
  if connection_id ∈ st.connections then
    ServeStep.failed (ForwardingError.Protocol "Connection already exists") []
  else
    match lookupAssoc st.targets target with
    | none => ServeStep.panicked
    | some (host, port) =>
        let dial := match host with
          | none => "[::1]:" ++ toString port
          | some _ => target
        if dialOk then
          ServeStep.next
            { st with connections := insert connection_id st.connections }
            [] [dial]
        else
          ServeStep.next st [PeerMessage.Disconnect connection_id] [dial]

/-- The `unexpected_message` error built by the `other` arm of both session
loops (the expected-tags string is kept without the quoting punctuation). -/
def ForwardingError.unexpectedSession (got : PeerMessage) : ForwardingError :=
  ForwardingError.ProtocolUnexpectedMessage
    "connect or disconnect or forward or close" got

/-- One serve-side loop iteration on a decoded transit message
(`ForwardingServe::run`, transit branch). On `Connect` the id is burned
into `historic_connections` before anything can fail. -/
def ForwardingServe.handleMsg (st : ForwardingServe) (m : PeerMessage)
    (writeOk dialOk : Bool) : ServeStep :=
  match m with
  | PeerMessage.Forward connection_id _payload =>
      match st.forward connection_id writeOk with
      | (sent, Except.ok st') => ServeStep.next st' sent []
      | (sent, Except.error e) => ServeStep.failed e sent
  | PeerMessage.Connect target connection_id =>
      let st1 := { st with
        historic_connections := insert connection_id st.historic_connections }
      if (lookupAssoc st1.targets target).isSome then
        st1.spawn_connection target connection_id dialOk
      else
        ServeStep.failed
          (ForwardingError.Protocol "We do not know the forwarding target") []
  | PeerMessage.Disconnect connection_id =>
      match st.remove_connection connection_id false with
      | (sent, Except.ok st') => ServeStep.next st' sent []
      | (sent, Except.error e) => ServeStep.failed e sent
  | PeerMessage.Close => ServeStep.closed []
  | PeerMessage.Error err => ServeStep.failed (ForwardingError.PeerError err) []
  | other =>
      ServeStep.failed
        (ForwardingError.unexpectedSession other) []

/-- One serve-side loop iteration on a raw transit frame: decode, then
handle; a decode failure surfaces as `ProtocolMsgpack` via the `?` with
`#[from] rmp_serde::decode::Error`. -/
def ForwardingServe.handleRaw (st : ForwardingServe) (raw : MP)
    (writeOk dialOk : Bool) : ServeStep :=
  match PeerMessage.de_msgpack raw with
  | Except.error e => ServeStep.failed (ForwardingError.ProtocolMsgpack e) []
  | Except.ok m => st.handleMsg m writeOk dialOk

/-- One serve-side loop iteration on a back-channel item: a payload is
forwarded to the peer; a close signal removes the connection with
`tell_peer = true`. -/
def ForwardingServe.handleBackchannel (st : ForwardingServe)
    (item : ℕ × Option (List ℕ)) : ServeStep :=
  match item with
  | (connection_id, some payload) =>
      ServeStep.next st [PeerMessage.Forward connection_id payload] []
  | (connection_id, none) =>
      match st.remove_connection connection_id true with
      | (sent, Except.ok st') => ServeStep.next st' sent []
      | (sent, Except.error e) => ServeStep.failed e sent

/-- The serve state entering the session loop: configured targets, no live
connections, empty historic set. -/
def serveInit (ts : List (String × (Option String × ℕ))) : ForwardingServe :=
  { targets := ts, connections := ∅, historic_connections := ∅ }

/-- Serve-side states reachable inside the session loop. Back-channel items
are unconstrained (a superset of what workers can produce). -/
inductive ServeReach (ts : List (String × (Option String × ℕ))) :
    ForwardingServe → Prop
  | init : ServeReach ts (serveInit ts)
  | msg (st : ForwardingServe) (raw : MP) (writeOk dialOk : Bool)
      (st' : ForwardingServe) (sent : List PeerMessage) (dials : List String) :
      ServeReach ts st →
      st.handleRaw raw writeOk dialOk = ServeStep.next st' sent dials →
      ServeReach ts st'
  | back (st : ForwardingServe) (item : ℕ × Option (List ℕ))
      (st' : ForwardingServe) (sent : List PeerMessage) (dials : List String) :
      ServeReach ts st →
      st.handleBackchannel item = ServeStep.next st' sent dials →
      ServeReach ts st'

/-- The targets map built at the top of `serve`: key is `"host:port"`, or
the bare port string when the host is absent. (The Rust code collects into
a `HashMap`; the association list keeps the input order, which only matters
for reading off the offered addresses.) -/
def buildTargets (targets : List (Option String × ℕ)) :
    List (String × (Option String × ℕ)) :=
  targets.map (fun hp =>
    match hp with
    | (some host, port) => (host ++ ":" ++ toString port, (some host, port))
    | (none, port) => (toString port, (none, port)))

/-- The address list carried by the `Offer` the serve role sends: the keys
of the targets map. -/
def offerAddresses (ts : List (String × (Option String × ℕ))) : List String :=
  ts.map (fun p => p.1)

/-! ## Listener role, connect side (src/forwarding.rs, `ForwardConnect`) -/

/-- The `ForwardConnect` struct: the monotonic id counter and the ids with a
live connection. The listener streams and per-connection workers are
abstracted away, as on the serve side. -/
structure ForwardConnect where
  connection_counter : ℕ
  connections : Finset ℕ

/-- Outcome of one connect-side loop iteration. -/
inductive ConnStep
  | next (st : ForwardConnect) (sent : List PeerMessage)
  | closed (sent : List PeerMessage)
  | failed (e : ForwardingError) (sent : List PeerMessage)

/-- Messages a connect-side step pushed into the transit sink. -/
def ConnStep.sent : ConnStep → List PeerMessage
  | ConnStep.next _ s => s
  | ConnStep.closed s => s
  | ConnStep.failed _ s => s

/-- `ForwardConnect::remove_connection`: like the serve side, except the
unknown-id test is `connection_id >= connection_counter` (ids below the
counter that are not live are a benign close race). -/
def ForwardConnect.remove_connection (st : ForwardConnect) (connection_id : ℕ)
    (tell_peer : Bool) :
    List PeerMessage × Except ForwardingError ForwardConnect :=
  ((if tell_peer then [PeerMessage.Disconnect connection_id] else []),
   if connection_id ∈ st.connections then
     Except.ok { st with connections := st.connections.erase connection_id }
   else if st.connection_counter ≤ connection_id then
     Except.error (ForwardingError.Protocol "Connection not found")
   else
     Except.ok st)

/-- `ForwardConnect::forward`: write to the live connection, tearing it down
on a write error; unknown ids are those at or above the counter. -/
def ForwardConnect.forward (st : ForwardConnect) (connection_id : ℕ)
    (writeOk : Bool) :
    List PeerMessage × Except ForwardingError ForwardConnect :=
  if connection_id ∈ st.connections then
    if writeOk then ([], Except.ok st)
    else st.remove_connection connection_id true
  else if st.connection_counter ≤ connection_id then
    ([], Except.error (ForwardingError.Protocol "Connection not found"))
  else
    ([], Except.ok st)

/-- `ForwardConnect::spawn_connection`: claim the current counter value as
the connection id, increment the counter, send `Connect` to the peer, and
insert the new live connection. -/
def ForwardConnect.spawn_connection (st : ForwardConnect) (target : String) :
    ForwardConnect × List PeerMessage :=
  let connection_id := st.connection_counter
  ({ connection_counter := connection_id + 1
     connections := insert connection_id st.connections },
   [PeerMessage.Connect target connection_id])

/-- One connect-side loop iteration on a decoded transit message
(`ForwardConnect::run`, transit branch). The connect role never expects
`Connect`, `Offer`, `Transit` or `Unknown`: all hit the `other` arm. -/
def ForwardConnect.handleMsg (st : ForwardConnect) (m : PeerMessage)
    (writeOk : Bool) : ConnStep :=
  match m with
  | PeerMessage.Forward connection_id _payload =>
      match st.forward connection_id writeOk with
      | (sent, Except.ok st') => ConnStep.next st' sent
      | (sent, Except.error e) => ConnStep.failed e sent
  | PeerMessage.Disconnect connection_id =>
      match st.remove_connection connection_id false with
      | (sent, Except.ok st') => ConnStep.next st' sent
      | (sent, Except.error e) => ConnStep.failed e sent
  | PeerMessage.Close => ConnStep.closed []
  | PeerMessage.Error err => ConnStep.failed (ForwardingError.PeerError err) []
  | other => ConnStep.failed (ForwardingError.unexpectedSession other) []

/-- One connect-side loop iteration on a raw transit frame. -/
def ForwardConnect.handleRaw (st : ForwardConnect) (raw : MP)
    (writeOk : Bool) : ConnStep :=
  match PeerMessage.de_msgpack raw with
  | Except.error e => ConnStep.failed (ForwardingError.ProtocolMsgpack e) []
  | Except.ok m => st.handleMsg m writeOk

/-- One connect-side loop iteration on a back-channel item. -/
def ForwardConnect.handleBackchannel (st : ForwardConnect)
    (item : ℕ × Option (List ℕ)) : ConnStep :=
  match item with
  | (connection_id, some payload) =>
      ConnStep.next st [PeerMessage.Forward connection_id payload]
  | (connection_id, none) =>
      match st.remove_connection connection_id true with
      | (sent, Except.ok st') => ConnStep.next st' sent
      | (sent, Except.error e) => ConnStep.failed e sent

/-- The three event sources `ForwardConnect::run` selects over: a transit
frame (with the write-outcome oracle), a back-channel item, and a locally
accepted TCP connection for an offered target. -/
inductive ConnEvent
  | msg (raw : MP) (writeOk : Bool)
  | back (item : ℕ × Option (List ℕ))
  | accept (target : String)

/-- Dispatch one connect-side event. -/
def ForwardConnect.step (st : ForwardConnect) : ConnEvent → ConnStep
  | ConnEvent.msg raw writeOk => st.handleRaw raw writeOk
  | ConnEvent.back item => st.handleBackchannel item
  | ConnEvent.accept target =>
      match st.spawn_connection target with
      | (st', sent) => ConnStep.next st' sent

/-- The connect state entering the session loop: counter 0, no connections. -/
def connInit : ForwardConnect := { connection_counter := 0, connections := ∅ }

/-- Run the connect-side loop over an event list, collecting every message
sent to the transit sink; the loop stops at `Close` or on an error. -/
def runConn (st : ForwardConnect) : List ConnEvent → ForwardConnect × List PeerMessage
  | [] => (st, [])
  | e :: es =>
      match st.step e with
      | ConnStep.next st' sent =>
          match runConn st' es with
          | (stf, rest) => (stf, sent ++ rest)
      | ConnStep.closed sent => (st, sent)
      | ConnStep.failed _ sent => (st, sent)

/-- The connection ids of the `Connect` messages in a sent-message trace,
in order. -/
def connectIds (msgs : List PeerMessage) : List ℕ :=
  msgs.filterMap (fun m =>
    match m with
    | PeerMessage.Connect _ connection_id => some connection_id
    | _ => none)

/-! ## Error echo wrappers (src/forwarding.rs, tails of `serve` and
`connect`)

Both role functions wrap the session loop result identically: a non-peer
error is echoed to the peer as an `Error` message best-effort (`sendOk`
models whether that send succeeded; its failure is suppressed either way)
and then returned unchanged; peer errors and success echo nothing. -/

/-- The echo-on-error tail of `serve`. Returns (messages written to the
transit sink after the loop, the value the role function returns). -/
def serveEcho (sendOk : Bool) (result : Except ForwardingError Unit) :
    List PeerMessage × Except ForwardingError Unit :=
  match result with
  | Except.ok _ => ([], result)
  | Except.error (ForwardingError.PeerError e) =>
      ([], Except.error (ForwardingError.PeerError e))
  | Except.error e =>
      ((if sendOk then [PeerMessage.Error e.fmt] else []), Except.error e)

/-- The echo-on-error tail of `connect` (same logic, duplicated in the
source). -/
def connectEcho (sendOk : Bool) (result : Except ForwardingError Unit) :
    List PeerMessage × Except ForwardingError Unit :=
  match result with
  | Except.ok _ => ([], result)
  | Except.error (ForwardingError.PeerError e) =>
      ([], Except.error (ForwardingError.PeerError e))
  | Except.error e =>
      ((if sendOk then [PeerMessage.Error e.fmt] else []), Except.error e)

/-- Whether a loop result is a failure other than a peer-reported error. -/
def nonPeerFailure : Except ForwardingError Unit → Bool
  | Except.error (ForwardingError.PeerError _) => false
  | Except.error _ => true
  | Except.ok _ => false

/-- Whether a peer message is an `Error` message. -/
def isErrMsg : PeerMessage → Bool
  | PeerMessage.Error _ => true
  | _ => false

/-! ## Theorems: rendezvous machine -/

/-- C2: for every configured url and every retry_delay > 0, the event
sequence start, connection_made, connection_lost, timer_expired on a fresh
`Rendezvous` emits exactly
[WebSocketOpen(url lowercased), WebSocketSendMessage(bind), StartTimer(retry),
WebSocketOpen(url lowercased)] and leaves the machine in `Connecting`; the
bind object has type "bind", the configured appid, and a non-empty side. -/
theorem rendezvous_happy_path (appid url : String) (q : ℚ) (h1 h2 h3 : ℕ)
    (_hq : 0 < q) :
    runEvents (create appid url q)
        [REvent.start, REvent.connection_made h1, REvent.connection_lost h2,
         REvent.timer_expired h3] =
      some ({ create appid url q with
                state := RState.Connecting, reconnect_timer := some 2 },
        [Action.WebSocketOpen 1 (strToLower url),
         Action.WebSocketSendMessage 1 (bindMessage appid),
         Action.StartTimer 2 q,
         Action.WebSocketOpen 2 (strToLower url)]) ∧
    (bindMessage appid).ty = "bind" ∧
    (bindMessage appid).appid = appid ∧
    (bindMessage appid).side ≠ "" :=
  ⟨rfl, rfl, rfl, by simp [bindMessage]⟩

/-- Witness for C2 at the spec scenario S6: url "WS://Example/", retry 5. -/
theorem rendezvous_happy_path_witness :
    (0 : ℚ) < 5 ∧
    (runEvents (create "appid" "WS://Example/" 5)
        [REvent.start, REvent.connection_made 1, REvent.connection_lost 1,
         REvent.timer_expired 2] =
      some ({ create "appid" "WS://Example/" 5 with
                state := RState.Connecting, reconnect_timer := some 2 },
        [Action.WebSocketOpen 1 "ws://example/",
         Action.WebSocketSendMessage 1 (bindMessage "appid"),
         Action.StartTimer 2 5,
         Action.WebSocketOpen 2 "ws://example/"]) ∧
      (bindMessage "appid").ty = "bind" ∧
      (bindMessage "appid").appid = "appid" ∧
      (bindMessage "appid").side ≠ "") :=
  ⟨by norm_num, by
    have h := rendezvous_happy_path "appid" "WS://Example/" 5 1 1 2 (by norm_num)
    have hl : strToLower "WS://Example/" = "ws://example/" := by decide
    rw [hl] at h
    exact h⟩

/-- C7 counterexample: `stop` in `Disconnecting` is *not* listed in the
diagram, yet the code silently absorbs it (the state is reachable via
start then stop): no panic is reported and no action is emitted, refuting
the claim that every unlisted pair is reported as a programming error. -/
theorem stop_in_disconnecting_absorbed :
    listed RState.Disconnecting REvent.stop = false ∧
    runEvents (create "appid" "url" 1) [REvent.start, REvent.stop] =
      some ({ create "appid" "url" 1 with state := RState.Disconnecting },
        [Action.WebSocketOpen 1 "url", Action.WebSocketClose 1]) ∧
    handleEvent { create "appid" "url" 1 with state := RState.Disconnecting }
        REvent.stop =
      some ({ create "appid" "url" 1 with state := RState.Disconnecting }, []) :=
  ⟨rfl, by decide, by decide⟩

/-- C7 amended: every (state, event) pair absent from the diagram panics
with no action emitted — except for `stop`, which is total: the only
unlisted stop pair, `stop` in `Disconnecting`, is silently absorbed,
emitting no action and leaving the state unchanged. -/
theorem unlisted_transitions_panic (r : Rendezvous) (e : REvent)
    (h : listed r.state e = false) :
    (e ≠ REvent.stop → handleEvent r e = none) ∧
    (e = REvent.stop →
      handleEvent r e = some ({ r with state := RState.Disconnecting }, [])) := by
  obtain ⟨wsh, url, q, appid, s, once, tm⟩ := r
  cases e <;> cases s <;>
    simp_all [handleEvent, listed, Rendezvous.start, Rendezvous.connection_made,
      Rendezvous.connection_lost, Rendezvous.timer_expired, Rendezvous.stop]

/-- Witness for C7's amended theorem at `connection_made` in `Idle`. -/
theorem unlisted_transitions_panic_witness :
    (REvent.connection_made 1 ≠ REvent.stop →
      handleEvent (create "a" "u" 1) (REvent.connection_made 1) = none) ∧
    (REvent.connection_made 1 = REvent.stop →
      handleEvent (create "a" "u" 1) (REvent.connection_made 1) =
        some ({ create "a" "u" 1 with state := RState.Disconnecting }, [])) :=
  unlisted_transitions_panic (create "a" "u" 1) (REvent.connection_made 1) rfl

/-- Timer-handle invariant for reachable machines: `Waiting` implies the
reconnect timer handle is present. -/
theorem reachR_timer_invariant (r : Rendezvous) (h : ReachR r) :
    r.state = RState.Waiting → r.reconnect_timer.isSome := by
  induction h with
  | init a u q => simp [create]
  | step r e r' acts hr heq ih =>
      obtain ⟨wsh, url, q, appid, s, once, tm⟩ := r
      cases e <;> cases s <;> cases tm <;>
        simp_all [handleEvent, Rendezvous.start, Rendezvous.connection_made,
          Rendezvous.connection_lost, Rendezvous.timer_expired,
          Rendezvous.stop] <;>
      · obtain ⟨rfl, rfl⟩ := heq
        simp

/-- C10: in every reachable state, `Waiting` implies `reconnect_timer` is
`Some` (connection_lost stores the handle before entering `Waiting`), so
the `unwrap` performed by `stop` in the `Waiting` branch can never panic:
`stop` always returns. -/
theorem waiting_timer_present (r : Rendezvous) (h : ReachR r) :
    (r.state = RState.Waiting → r.reconnect_timer.isSome) ∧
    (Rendezvous.stop r).isSome := by
  refine ⟨reachR_timer_invariant r h, ?_⟩
  have hw := reachR_timer_invariant r h
  obtain ⟨wsh, url, q, appid, s, once, tm⟩ := r
  cases s <;> cases tm <;> simp_all [Rendezvous.stop]

/-- Witness for C10 at the freshly created machine. -/
theorem waiting_timer_present_witness :
    ((create "a" "u" 1).state = RState.Waiting →
      (create "a" "u" 1).reconnect_timer.isSome) ∧
    (Rendezvous.stop (create "a" "u" 1)).isSome :=
  waiting_timer_present (create "a" "u" 1) (ReachR.init "a" "u" 1)

/-- The open-websocket invariant relating machine state to the set of open
handles: one websocket while connecting/connected, at most one while the
close requested by `stop` is in flight, none otherwise. -/
def wsOpenInv (r : Rendezvous) (S : Finset ℕ) : Prop :=
  match r.state with
  | RState.Connecting => S.card = 1
  | RState.Connected => S.card = 1
  | RState.Disconnecting => S.card ≤ 1
  | _ => S = ∅

/-- A set of cardinality at most one containing `h` loses everything when
`h` is erased. -/
theorem erase_of_card_le_one {S : Finset ℕ} {h : ℕ} (hc : S.card ≤ 1)
    (hm : h ∈ S) : S.erase h = ∅ := by
  have h1 : 1 ≤ S.card := Finset.card_pos.mpr ⟨h, hm⟩
  have hcard : (S.erase h).card = S.card - 1 := Finset.card_erase_of_mem hm
  have : (S.erase h).card = 0 := by omega
  exact Finset.card_eq_zero.mp this

/-- The open-websocket invariant holds in every reachable configuration. -/
theorem reachOpen_invariant (r : Rendezvous) (S : Finset ℕ)
    (h : ReachOpen r S) : wsOpenInv r S := by
  induction h with
  | init a u q => simp [wsOpenInv, create]
  | step r S e r' acts hr hlost heq ih =>
      obtain ⟨wsh, url, q, appid, s, once, tm⟩ := r
      cases e with
      | start =>
          cases s <;> simp_all [handleEvent, Rendezvous.start]
          obtain ⟨rfl, rfl⟩ := heq
          simp_all [wsOpenInv, actionsOpen, eventClose]
      | connection_made h0 =>
          cases s <;> simp_all [handleEvent, Rendezvous.connection_made]
          obtain ⟨rfl, rfl⟩ := heq
          simp_all [wsOpenInv, actionsOpen, eventClose]
      | connection_lost h0 =>
          have hm : h0 ∈ S := hlost h0 rfl
          cases s <;> simp_all [handleEvent, Rendezvous.connection_lost] <;>
          · obtain ⟨rfl, rfl⟩ := heq
            simp_all [wsOpenInv, actionsOpen, eventClose]
            simp [erase_of_card_le_one (by simp_all [wsOpenInv]) hm]
      | timer_expired h0 =>
          cases s <;> simp_all [handleEvent, Rendezvous.timer_expired]
          obtain ⟨rfl, rfl⟩ := heq
          simp_all [wsOpenInv, actionsOpen, eventClose]
      | stop =>
          cases s <;> cases tm <;>
            simp_all [handleEvent, Rendezvous.stop] <;>
          · obtain ⟨rfl, rfl⟩ := heq
            simp_all [wsOpenInv, actionsOpen, eventClose]
            try exact le_trans (Finset.card_erase_le) (by simp_all [wsOpenInv])

/-- C8: in every reachable configuration of the machine together with the
open-handle accounting of its action trace, at most one websocket handle is
open. -/
theorem single_websocket_open (r : Rendezvous) (S : Finset ℕ)
    (h : ReachOpen r S) : S.card ≤ 1 := by
  have hi := reachOpen_invariant r S h
  unfold wsOpenInv at hi
  rcases hr : r.state <;> simp_all [hr]

/-- Witness for C8 at the freshly created machine. -/
theorem single_websocket_open_witness : (∅ : Finset ℕ).card ≤ 1 :=
  single_websocket_open (create "a" "u" 1) ∅ (ReachOpen.init "a" "u" 1)

/-! ## Theorems: peer message codec -/

/-- C3: `de_msgpack (ser_msgpack m) = Ok m` for every `PeerMessage` variant
at a canonical value. -/
theorem peer_message_roundtrip :
    PeerMessage.de_msgpack
        (PeerMessage.ser_msgpack (PeerMessage.Offer ["example.com:22"])) =
      Except.ok (PeerMessage.Offer ["example.com:22"]) ∧
    PeerMessage.de_msgpack
        (PeerMessage.ser_msgpack (PeerMessage.Connect "5000" 0)) =
      Except.ok (PeerMessage.Connect "5000" 0) ∧
    PeerMessage.de_msgpack
        (PeerMessage.ser_msgpack (PeerMessage.Disconnect 3)) =
      Except.ok (PeerMessage.Disconnect 3) ∧
    PeerMessage.de_msgpack
        (PeerMessage.ser_msgpack (PeerMessage.Forward 7 [0, 100, 255])) =
      Except.ok (PeerMessage.Forward 7 [0, 100, 255]) ∧
    PeerMessage.de_msgpack (PeerMessage.ser_msgpack PeerMessage.Close) =
      Except.ok PeerMessage.Close ∧
    PeerMessage.de_msgpack
        (PeerMessage.ser_msgpack (PeerMessage.Error "boom")) =
      Except.ok (PeerMessage.Error "boom") ∧
    PeerMessage.de_msgpack
        (PeerMessage.ser_msgpack
          (PeerMessage.Transit (MP.map [(MP.str "hints-blob", MP.nil)]))) =
      Except.ok (PeerMessage.Transit (MP.map [(MP.str "hints-blob", MP.nil)])) ∧
    PeerMessage.de_msgpack (PeerMessage.ser_msgpack PeerMessage.Unknown) =
      Except.ok PeerMessage.Unknown :=
  ⟨rfl, rfl, rfl, rfl, rfl, rfl, rfl, rfl⟩

/-- C6 counterexample: the unrecognized tag "ping" with non-nil content
does *not* decode to `Ok Unknown`: serde decodes the `#[serde(other)]`
`Unknown` arm as a unit variant, so the tagged content must be nil, and
`de_msgpack` on the well-formed message with tag "ping" and content 5
returns a decode error instead. -/
theorem unknown_tag_content_not_ignored :
    ("ping" ∉ recognizedTags) ∧
    PeerMessage.de_msgpack (MP.map [(MP.str "ping", MP.uint 5)]) =
      Except.error "invalid type for unit variant" ∧
    PeerMessage.de_msgpack (MP.map [(MP.str "ping", MP.uint 5)]) ≠
      Except.ok PeerMessage.Unknown := by
  refine ⟨by decide, rfl, fun hcontra => ?_⟩
  exact Except.noConfusion hcontra

/-- C6 amended: decoding is open only up to serde's unit-variant content
check: an unrecognized tag decodes to `Ok Unknown` when the message is a
bare identifier or a map with nil content, while map-form non-nil content
is a decode error; a malformed input yields a decode error that the serve
loop surfaces as `ProtocolMsgpack`, a different error kind than
`PeerError`; and a decoded `Unknown` is treated by the session loop as a
protocol error (`ProtocolUnexpectedMessage`). -/
theorem open_decoding (tag : String) (content raw : MP) (st : ForwardingServe)
    (w d : Bool) (e : String)
    (htag : tag ∉ recognizedTags)
    (hmal : PeerMessage.de_msgpack raw = Except.error e) :
    PeerMessage.de_msgpack (MP.map [(MP.str tag, MP.nil)]) =
      Except.ok PeerMessage.Unknown ∧
    PeerMessage.de_msgpack (MP.str tag) = Except.ok PeerMessage.Unknown ∧
    (content ≠ MP.nil →
      PeerMessage.de_msgpack (MP.map [(MP.str tag, content)]) =
        Except.error "invalid type for unit variant") ∧
    st.handleRaw raw w d =
      ServeStep.failed (ForwardingError.ProtocolMsgpack e) [] ∧
    (∀ s, ForwardingError.ProtocolMsgpack e ≠ ForwardingError.PeerError s) ∧
    st.handleMsg PeerMessage.Unknown w d =
      ServeStep.failed
        (ForwardingError.unexpectedSession PeerMessage.Unknown) [] ∧
    (ForwardingError.unexpectedSession PeerMessage.Unknown).isProtocol = true := by
  simp only [recognizedTags, List.mem_cons, List.not_mem_nil, or_false,
    not_or] at htag
  obtain ⟨h1, h2, h3, h4, h5, h6, h7⟩ := htag
  have hTagged : ∀ c, PeerMessage.de_msgpack (MP.map [(MP.str tag, c)]) =
      decodeOtherContent c := by
    intro c
    show decodeTagged tag c = decodeOtherContent c
    simp only [decodeTagged, if_neg h1, if_neg h2, if_neg h3, if_neg h4,
      if_neg h5, if_neg h6, if_neg h7]
  refine ⟨?_, ?_, ?_, ?_, ?_, rfl, rfl⟩
  · rw [hTagged]
    rfl
  · show (if tag = "close" then Except.ok PeerMessage.Close
      else if tag ∈ recognizedTags then
        (Except.error "expected variant content" : Except String PeerMessage)
      else Except.ok PeerMessage.Unknown) = Except.ok PeerMessage.Unknown
    rw [if_neg h5, if_neg (by simp [recognizedTags, h1, h2, h3, h4, h5, h6, h7])]
  · intro hc
    rw [hTagged]
    cases content <;> simp_all [decodeOtherContent]
  · unfold ForwardingServe.handleRaw
    rw [hmal]
  · intro s hcontra
    exact ForwardingError.noConfusion hcontra

/-- Witness for C6 at tag "ping", content 5, and the malformed input
`map []` (a zero-entry map is not a variant under any serde form). -/
theorem open_decoding_witness :
    PeerMessage.de_msgpack (MP.map [(MP.str "ping", MP.nil)]) =
      Except.ok PeerMessage.Unknown ∧
    PeerMessage.de_msgpack (MP.str "ping") = Except.ok PeerMessage.Unknown ∧
    (MP.uint 5 ≠ MP.nil →
      PeerMessage.de_msgpack (MP.map [(MP.str "ping", MP.uint 5)]) =
        Except.error "invalid type for unit variant") ∧
    (serveInit []).handleRaw (MP.map []) true true =
      ServeStep.failed
        (ForwardingError.ProtocolMsgpack "invalid map-form variant") [] ∧
    (∀ s, ForwardingError.ProtocolMsgpack "invalid map-form variant" ≠
      ForwardingError.PeerError s) ∧
    (serveInit []).handleMsg PeerMessage.Unknown true true =
      ServeStep.failed
        (ForwardingError.unexpectedSession PeerMessage.Unknown) [] ∧
    (ForwardingError.unexpectedSession PeerMessage.Unknown).isProtocol = true :=
  open_decoding "ping" (MP.uint 5) (MP.map []) (serveInit []) true true
    "invalid map-form variant" (by decide) rfl

/-! ## Theorems: serve side -/

/-- What a successful `remove_connection` preserves on the serve side. -/
theorem serveRemove_ok (st : ForwardingServe) (cid : ℕ) (tp : Bool)
    (sent : List PeerMessage) (st' : ForwardingServe)
    (h : st.remove_connection cid tp = (sent, Except.ok st')) :
    st'.targets = st.targets ∧
    st'.historic_connections = st.historic_connections ∧
    st'.connections ⊆ st.connections := by
  unfold ForwardingServe.remove_connection at h
  obtain ⟨-, h⟩ := Prod.mk.injEq .. ▸ h
  split_ifs at h with hc hh
  · obtain rfl := Except.ok.injEq .. ▸ h
    exact ⟨rfl, rfl, Finset.erase_subset _ _⟩
  · obtain rfl := Except.ok.injEq .. ▸ h
    exact ⟨rfl, rfl, subset_rfl⟩

/-- What a successful `forward` preserves on the serve side. -/
theorem serveForward_ok (st : ForwardingServe) (cid : ℕ) (w : Bool)
    (sent : List PeerMessage) (st' : ForwardingServe)
    (h : st.forward cid w = (sent, Except.ok st')) :
    st'.targets = st.targets ∧
    st'.historic_connections = st.historic_connections ∧
    st'.connections ⊆ st.connections := by
  unfold ForwardingServe.forward at h
  split_ifs at h with hc hw hh
  · obtain ⟨-, h⟩ := Prod.mk.injEq .. ▸ h
    obtain rfl := Except.ok.injEq .. ▸ h
    exact ⟨rfl, rfl, subset_rfl⟩
  · exact serveRemove_ok st cid true sent st' h
  · obtain ⟨-, h⟩ := Prod.mk.injEq .. ▸ h
    obtain rfl := Except.ok.injEq .. ▸ h
    exact ⟨rfl, rfl, subset_rfl⟩
  · exact absurd h (by simp)

/-- What a continuing `spawn_connection` step does on the serve side. -/
theorem serveSpawn_next (st : ForwardingServe) (target : String) (cid : ℕ)
    (d : Bool) (st' : ForwardingServe) (sent : List PeerMessage)
    (dials : List String)
    (h : st.spawn_connection target cid d = ServeStep.next st' sent dials) :
    st'.targets = st.targets ∧
    st'.historic_connections = st.historic_connections ∧
    st'.connections ⊆ insert cid st.connections := by
  unfold ForwardingServe.spawn_connection at h
  by_cases hocc : cid ∈ st.connections
  · rw [if_pos hocc] at h
    exact ServeStep.noConfusion h
  · rw [if_neg hocc] at h
    rcases hl : lookupAssoc st.targets target with - | ⟨host, port⟩ <;>
      rw [hl] at h
    · exact ServeStep.noConfusion h
    · cases d with
      | true =>
          simp only [ite_true, ServeStep.next.injEq] at h
          obtain ⟨h1, -, -⟩ := h
          subst h1
          exact ⟨rfl, rfl, subset_rfl⟩
      | false =>
          simp only [Bool.false_eq_true, ite_false, ServeStep.next.injEq] at h
          obtain ⟨h1, -, -⟩ := h
          subst h1
          exact ⟨rfl, rfl, Finset.subset_insert _ _⟩

/-- What a continuing transit-message step preserves on the serve side:
targets never change, the historic set only grows, and any id added to
`connections` was just burned into the historic set. -/
theorem serveHandleMsg_next (st : ForwardingServe) (m : PeerMessage)
    (w d : Bool) (st' : ForwardingServe) (sent : List PeerMessage)
    (dials : List String)
    (h : st.handleMsg m w d = ServeStep.next st' sent dials)
    (hsub : st.connections ⊆ st.historic_connections) :
    st'.targets = st.targets ∧
    st.historic_connections ⊆ st'.historic_connections ∧
    st'.connections ⊆ st'.historic_connections := by
  cases m with
  | Forward cid payload =>
      simp only [ForwardingServe.handleMsg] at h
      rcases hf : st.forward cid w with ⟨s2, r2⟩
      rw [hf] at h
      cases r2 with
      | ok stok =>
          simp only [ServeStep.next.injEq] at h
          obtain ⟨rfl, -, -⟩ := h
          obtain ⟨ht, hh, hc⟩ := serveForward_ok st cid w s2 stok hf
          exact ⟨ht, hh ▸ subset_rfl, hh ▸ (hc.trans hsub)⟩
      | error e => simp at h
  | Connect target cid =>
      simp only [ForwardingServe.handleMsg] at h
      split_ifs at h
      obtain ⟨ht, hh, hc⟩ := serveSpawn_next _ target cid d st' sent dials h
      refine ⟨ht, ?_, ?_⟩
      · rw [hh]
        exact (Finset.subset_insert _ _)
      · rw [hh]
        refine hc.trans ?_
        intro x hx
        rcases Finset.mem_insert.mp hx with rfl | hx
        · exact Finset.mem_insert_self _ _
        · exact Finset.mem_insert_of_mem (hsub hx)
  | Disconnect cid =>
      simp only [ForwardingServe.handleMsg] at h
      rcases hf : st.remove_connection cid false with ⟨s2, r2⟩
      rw [hf] at h
      cases r2 with
      | ok stok =>
          simp only [ServeStep.next.injEq] at h
          obtain ⟨rfl, -, -⟩ := h
          obtain ⟨ht, hh, hc⟩ := serveRemove_ok st cid false s2 stok hf
          exact ⟨ht, hh ▸ subset_rfl, hh ▸ (hc.trans hsub)⟩
      | error e => simp at h
  | Close => simp [ForwardingServe.handleMsg] at h
  | Error e => simp [ForwardingServe.handleMsg] at h
  | Offer a => simp [ForwardingServe.handleMsg] at h
  | Transit hints => simp [ForwardingServe.handleMsg] at h
  | Unknown => simp [ForwardingServe.handleMsg] at h

/-- What a continuing back-channel step preserves on the serve side. -/
theorem serveBack_next (st : ForwardingServe) (item : ℕ × Option (List ℕ))
    (st' : ForwardingServe) (sent : List PeerMessage) (dials : List String)
    (h : st.handleBackchannel item = ServeStep.next st' sent dials)
    (hsub : st.connections ⊆ st.historic_connections) :
    st'.targets = st.targets ∧
    st.historic_connections ⊆ st'.historic_connections ∧
    st'.connections ⊆ st'.historic_connections := by
  rcases item with ⟨cid, pl⟩
  cases pl with
  | some payload =>
      simp only [ForwardingServe.handleBackchannel, ServeStep.next.injEq] at h
      obtain ⟨rfl, -, -⟩ := h
      exact ⟨rfl, subset_rfl, hsub⟩
  | none =>
      simp only [ForwardingServe.handleBackchannel] at h
      rcases hf : st.remove_connection cid true with ⟨s2, r2⟩
      rw [hf] at h
      cases r2 with
      | ok stok =>
          simp only [ServeStep.next.injEq] at h
          obtain ⟨rfl, -, -⟩ := h
          obtain ⟨ht, hh, hc⟩ := serveRemove_ok st cid true s2 stok hf
          exact ⟨ht, hh ▸ subset_rfl, hh ▸ (hc.trans hsub)⟩
      | error e => simp at h

/-- Serve-side reachability invariant: live connections are a subset of the
historic (burned) id set. -/
theorem serveReach_subset (ts : List (String × (Option String × ℕ)))
    (st : ForwardingServe) (h : ServeReach ts st) :
    st.connections ⊆ st.historic_connections := by
  induction h with
  | init => simp [serveInit]
  | msg st raw w d st' sent dials hr heq ih =>
      unfold ForwardingServe.handleRaw at heq
      rcases hd : PeerMessage.de_msgpack raw with e | m <;> rw [hd] at heq
      · simp at heq
      · exact (serveHandleMsg_next st m w d st' sent dials heq ih).2.2
  | back st item st' sent dials hr heq ih =>
      exact (serveBack_next st item st' sent dials heq ih).2.2

/-- C1, serve-side burn rule: a handled `Connect{id=K}` burns K into the
historic set; the historic set only grows across loop steps; once K is
historic, neither `Forward{id=K}` nor `Disconnect{id=K}` fails with a
protocol error (regardless of live/dead connection and of local write
outcomes); and in any reachable state, `Forward{id=K}` for a K never
announced fails with the `Protocol` (ProtocolSemantic) error. -/
theorem serve_burn_rule (ts : List (String × (Option String × ℕ)))
    (st : ForwardingServe) (hreach : ServeReach ts st) (K : ℕ)
    (payload : List ℕ) (w d : Bool) (target : String) :
    (∀ st' sent dials,
      st.handleMsg (PeerMessage.Connect target K) w d =
        ServeStep.next st' sent dials →
      K ∈ st'.historic_connections) ∧
    (∀ raw st' sent dials,
      st.handleRaw raw w d = ServeStep.next st' sent dials →
      st.historic_connections ⊆ st'.historic_connections) ∧
    (∀ item st' sent dials,
      st.handleBackchannel item = ServeStep.next st' sent dials →
      st.historic_connections ⊆ st'.historic_connections) ∧
    (K ∈ st.historic_connections →
      (st.handleMsg (PeerMessage.Forward K payload) w d).protocolError = false ∧
      (st.handleMsg (PeerMessage.Disconnect K) w d).protocolError = false) ∧
    (K ∉ st.historic_connections →
      st.handleMsg (PeerMessage.Forward K payload) w d =
        ServeStep.failed (ForwardingError.Protocol "Connection not found") []) := by
  have hsub := serveReach_subset ts st hreach
  refine ⟨?_, ?_, ?_, ?_, ?_⟩
  · intro st' sent dials h
    simp only [ForwardingServe.handleMsg] at h
    split_ifs at h
    obtain ⟨-, hh, -⟩ := serveSpawn_next _ target K d st' sent dials h
    rw [hh]
    exact Finset.mem_insert_self _ _
  · intro raw st' sent dials h
    unfold ForwardingServe.handleRaw at h
    rcases hd : PeerMessage.de_msgpack raw with e | m <;> rw [hd] at h
    · simp at h
    · exact (serveHandleMsg_next st m w d st' sent dials h hsub).2.1
  · intro item st' sent dials h
    exact (serveBack_next st item st' sent dials h hsub).2.1
  · intro hK
    constructor
    · simp only [ForwardingServe.handleMsg]
      rcases hf : st.forward K w with ⟨s2, r2⟩
      cases r2 with
      | ok stok => rfl
      | error e =>
          exfalso
          unfold ForwardingServe.forward ForwardingServe.remove_connection at hf
          split_ifs at hf with hc hw hh <;> simp_all
    · simp only [ForwardingServe.handleMsg]
      rcases hf : st.remove_connection K false with ⟨s2, r2⟩
      cases r2 with
      | ok stok => rfl
      | error e =>
          exfalso
          unfold ForwardingServe.remove_connection at hf
          split_ifs at hf with hc hh <;> simp_all
  · intro hK
    have hKc : K ∉ st.connections := fun hc => hK (hsub hc)
    simp only [ForwardingServe.handleMsg, ForwardingServe.forward,
      if_neg hKc, if_neg hK]

/-- Witness for C1 at the initial serve state with the loopback target. -/
theorem serve_burn_rule_witness :
    (serveInit (buildTargets [(none, 5000)])).handleMsg
        (PeerMessage.Forward 0 []) true true =
      ServeStep.failed (ForwardingError.Protocol "Connection not found") [] :=
  (serve_burn_rule (buildTargets [(none, 5000)])
      (serveInit (buildTargets [(none, 5000)])) ServeReach.init 0 [] true true
      "5000").2.2.2.2 (by simp [serveInit])

/-- C9: with targets = [(None, 5000)] the offered address list is ["5000"],
and a `Connect{target="5000", id=0}` makes the serve role dial the string
"[::1]:5000" (host-absent targets are keyed by the bare port string and
dialed on IPv6 loopback). -/
theorem loopback_target :
    offerAddresses (buildTargets [(none, 5000)]) = ["5000"] ∧
    (serveInit (buildTargets [(none, 5000)])).handleMsg
        (PeerMessage.Connect "5000" 0) true true =
      ServeStep.next
        { targets := buildTargets [(none, 5000)]
          connections := insert 0 (∅ : Finset ℕ)
          historic_connections := insert 0 (∅ : Finset ℕ) }
        [] ["[::1]:5000"] :=
  ⟨rfl, rfl⟩

/-! ## Theorems: loop output characterization (for C4 and C5) -/

/-- Serve-side `remove_connection` sends no `Error` message. -/
theorem serveRemove_sent (st : ForwardingServe) (cid : ℕ) (tp : Bool) :
    ((st.remove_connection cid tp).1).countP isErrMsg = 0 := by
  unfold ForwardingServe.remove_connection
  cases tp <;> simp [isErrMsg]

/-- Serve-side `forward` sends no `Error` message. -/
theorem serveForward_sent (st : ForwardingServe) (cid : ℕ) (w : Bool) :
    ((st.forward cid w).1).countP isErrMsg = 0 := by
  unfold ForwardingServe.forward
  split_ifs <;> simp [serveRemove_sent, isErrMsg]

/-- Serve-side `spawn_connection` sends no `Error` message. -/
theorem serveSpawn_sent (st : ForwardingServe) (t : String) (cid : ℕ)
    (d : Bool) :
    ((st.spawn_connection t cid d).sent).countP isErrMsg = 0 := by
  unfold ForwardingServe.spawn_connection
  by_cases hocc : cid ∈ st.connections
  · rw [if_pos hocc]
    simp [ServeStep.sent]
  · rw [if_neg hocc]
    rcases lookupAssoc st.targets t with - | ⟨host, port⟩
    · simp [ServeStep.sent]
    · cases d <;> simp [ServeStep.sent, isErrMsg]

/-- A serve-side transit step never sends an `Error` message. -/
theorem serveHandleMsg_sent (st : ForwardingServe) (m : PeerMessage)
    (w d : Bool) : ((st.handleMsg m w d).sent).countP isErrMsg = 0 := by
  cases m with
  | Forward cid p =>
      simp only [ForwardingServe.handleMsg]
      rcases hf : st.forward cid w with ⟨s2, r2⟩
      have hs : s2.countP isErrMsg = 0 := by
        have h0 := serveForward_sent st cid w
        rw [hf] at h0
        exact h0
      cases r2 <;> simpa [ServeStep.sent] using hs
  | Connect t cid =>
      simp only [ForwardingServe.handleMsg]
      split_ifs
      · exact serveSpawn_sent _ t cid d
      · simp [ServeStep.sent]
  | Disconnect cid =>
      simp only [ForwardingServe.handleMsg]
      rcases hf : st.remove_connection cid false with ⟨s2, r2⟩
      have hs : s2.countP isErrMsg = 0 := by
        have h0 := serveRemove_sent st cid false
        rw [hf] at h0
        exact h0
      cases r2 <;> simpa [ServeStep.sent] using hs
  | Close => simp [ForwardingServe.handleMsg, ServeStep.sent]
  | Error e => simp [ForwardingServe.handleMsg, ServeStep.sent]
  | Offer a => simp [ForwardingServe.handleMsg, ServeStep.sent]
  | Transit hints => simp [ForwardingServe.handleMsg, ServeStep.sent]
  | Unknown => simp [ForwardingServe.handleMsg, ServeStep.sent]

/-- A serve-side raw-frame step never sends an `Error` message. -/
theorem serveRaw_sent (st : ForwardingServe) (raw : MP) (w d : Bool) :
    ((st.handleRaw raw w d).sent).countP isErrMsg = 0 := by
  unfold ForwardingServe.handleRaw
  rcases PeerMessage.de_msgpack raw with e | m
  · simp [ServeStep.sent]
  · exact serveHandleMsg_sent st m w d

/-- A serve-side back-channel step never sends an `Error` message. -/
theorem serveBack_sent (st : ForwardingServe) (item : ℕ × Option (List ℕ)) :
    ((st.handleBackchannel item).sent).countP isErrMsg = 0 := by
  rcases item with ⟨cid, pl⟩
  cases pl with
  | some payload => simp [ForwardingServe.handleBackchannel, ServeStep.sent, isErrMsg]
  | none =>
      simp only [ForwardingServe.handleBackchannel]
      rcases hf : st.remove_connection cid true with ⟨s2, r2⟩
      have hs : s2.countP isErrMsg = 0 := by
        have h0 := serveRemove_sent st cid true
        rw [hf] at h0
        exact h0
      cases r2 <;> simpa [ServeStep.sent] using hs

/-- Connect-side `remove_connection` sends no `Error` and no `Connect`
message, and a successful one does not change the counter and only removes
connections. -/
theorem connRemove_props (st : ForwardConnect) (cid : ℕ) (tp : Bool) :
    ((st.remove_connection cid tp).1).countP isErrMsg = 0 ∧
    connectIds (st.remove_connection cid tp).1 = [] ∧
    (∀ sent st', st.remove_connection cid tp = (sent, Except.ok st') →
      st'.connection_counter = st.connection_counter ∧
      st'.connections ⊆ st.connections) := by
  refine ⟨?_, ?_, ?_⟩
  · unfold ForwardConnect.remove_connection
    cases tp <;> simp [isErrMsg]
  · unfold ForwardConnect.remove_connection
    cases tp <;> simp [connectIds]
  · intro sent st' h
    unfold ForwardConnect.remove_connection at h
    obtain ⟨-, h⟩ := Prod.mk.injEq .. ▸ h
    split_ifs at h with h1 h2
    · obtain rfl := Except.ok.injEq .. ▸ h
      exact ⟨rfl, Finset.erase_subset _ _⟩
    · obtain rfl := Except.ok.injEq .. ▸ h
      exact ⟨rfl, subset_rfl⟩

/-- Connect-side `forward` sends no `Error` and no `Connect` message, and a
successful one does not change the counter and only removes connections. -/
theorem connForward_props (st : ForwardConnect) (cid : ℕ) (w : Bool) :
    ((st.forward cid w).1).countP isErrMsg = 0 ∧
    connectIds (st.forward cid w).1 = [] ∧
    (∀ sent st', st.forward cid w = (sent, Except.ok st') →
      st'.connection_counter = st.connection_counter ∧
      st'.connections ⊆ st.connections) := by
  refine ⟨?_, ?_, ?_⟩
  · unfold ForwardConnect.forward
    split_ifs
    · simp
    · exact (connRemove_props st cid true).1
    · simp
    · simp
  · unfold ForwardConnect.forward
    split_ifs
    · simp [connectIds]
    · exact (connRemove_props st cid true).2.1
    · simp [connectIds]
    · simp [connectIds]
  · intro sent st' h
    unfold ForwardConnect.forward at h
    split_ifs at h with h1 h2 h3
    · obtain ⟨-, h⟩ := Prod.mk.injEq .. ▸ h
      obtain rfl := Except.ok.injEq .. ▸ h
      exact ⟨rfl, subset_rfl⟩
    · exact (connRemove_props st cid true).2.2 sent st' h
    · obtain ⟨-, h⟩ := Prod.mk.injEq .. ▸ h
      exact absurd h (by simp)
    · obtain ⟨-, h⟩ := Prod.mk.injEq .. ▸ h
      obtain rfl := Except.ok.injEq .. ▸ h
      exact ⟨rfl, subset_rfl⟩

/-- A continuing connect-side step is either a transit/back-channel step
(no `Connect` sent, counter unchanged, connections only removed) or a local
accept (exactly one `Connect` carrying the current counter value, counter
incremented, that id inserted). -/
theorem conn_step_next (st : ForwardConnect) (e : ConnEvent)
    (st' : ForwardConnect) (sent : List PeerMessage)
    (h : st.step e = ConnStep.next st' sent) :
    (connectIds sent = [] ∧
       st'.connection_counter = st.connection_counter ∧
       st'.connections ⊆ st.connections) ∨
    (connectIds sent = [st.connection_counter] ∧
       st'.connection_counter = st.connection_counter + 1 ∧
       st'.connections = insert st.connection_counter st.connections) := by
  cases e with
  | accept t =>
      right
      simp only [ForwardConnect.step, ForwardConnect.spawn_connection,
        ConnStep.next.injEq] at h
      obtain ⟨h1, h2⟩ := h
      subst h1
      subst h2
      exact ⟨by simp [connectIds], rfl, rfl⟩
  | msg raw wk =>
      left
      simp only [ForwardConnect.step, ForwardConnect.handleRaw] at h
      rcases hd : PeerMessage.de_msgpack raw with e0 | m <;> rw [hd] at h
      · exact absurd h (by simp)
      · cases m with
        | Forward cid p =>
            simp only [ForwardConnect.handleMsg] at h
            rcases hf : st.forward cid wk with ⟨s2, r2⟩
            rw [hf] at h
            cases r2 with
            | ok stok =>
                simp only [ConnStep.next.injEq] at h
                obtain ⟨h1, h2⟩ := h
                subst h1
                subst h2
                have hids := (connForward_props st cid wk).2.1
                rw [hf] at hids
                exact ⟨hids, (connForward_props st cid wk).2.2 s2 stok hf⟩
            | error e1 => exact absurd h (by simp)
        | Disconnect cid =>
            simp only [ForwardConnect.handleMsg] at h
            rcases hf : st.remove_connection cid false with ⟨s2, r2⟩
            rw [hf] at h
            cases r2 with
            | ok stok =>
                simp only [ConnStep.next.injEq] at h
                obtain ⟨h1, h2⟩ := h
                subst h1
                subst h2
                have hids := (connRemove_props st cid false).2.1
                rw [hf] at hids
                exact ⟨hids, (connRemove_props st cid false).2.2 s2 stok hf⟩
            | error e1 => exact absurd h (by simp)
        | Close => exact absurd h (by simp [ForwardConnect.handleMsg])
        | Error e1 => exact absurd h (by simp [ForwardConnect.handleMsg])
        | Offer a => exact absurd h (by simp [ForwardConnect.handleMsg])
        | Connect t cid => exact absurd h (by simp [ForwardConnect.handleMsg])
        | Transit hints => exact absurd h (by simp [ForwardConnect.handleMsg])
        | Unknown => exact absurd h (by simp [ForwardConnect.handleMsg])
  | back item =>
      left
      rcases item with ⟨cid, pl⟩
      cases pl with
      | some payload =>
          simp only [ForwardConnect.step, ForwardConnect.handleBackchannel,
            ConnStep.next.injEq] at h
          obtain ⟨h1, h2⟩ := h
          subst h1
          subst h2
          exact ⟨by simp [connectIds], rfl, subset_rfl⟩
      | none =>
          simp only [ForwardConnect.step, ForwardConnect.handleBackchannel] at h
          rcases hf : st.remove_connection cid true with ⟨s2, r2⟩
          rw [hf] at h
          cases r2 with
          | ok stok =>
              simp only [ConnStep.next.injEq] at h
              obtain ⟨h1, h2⟩ := h
              subst h1
              subst h2
              have hids := (connRemove_props st cid true).2.1
              rw [hf] at hids
              exact ⟨hids, (connRemove_props st cid true).2.2 s2 stok hf⟩
          | error e1 => exact absurd h (by simp)

/-- A connect-side step on a non-accept event sends no `Connect` message,
whatever the outcome. -/
theorem conn_step_sent_ids (st : ForwardConnect) (e : ConnEvent)
    (hna : ∀ t, e ≠ ConnEvent.accept t) :
    connectIds ((st.step e).sent) = [] := by
  cases e with
  | accept t => exact absurd rfl (hna t)
  | msg raw wk =>
      simp only [ForwardConnect.step, ForwardConnect.handleRaw]
      rcases PeerMessage.de_msgpack raw with e0 | m
      · simp [ConnStep.sent, connectIds]
      · cases m with
        | Forward cid p =>
            simp only [ForwardConnect.handleMsg]
            rcases hf : st.forward cid wk with ⟨s2, r2⟩
            have hids := (connForward_props st cid wk).2.1
            rw [hf] at hids
            cases r2 <;> simpa [ConnStep.sent] using hids
        | Disconnect cid =>
            simp only [ForwardConnect.handleMsg]
            rcases hf : st.remove_connection cid false with ⟨s2, r2⟩
            have hids := (connRemove_props st cid false).2.1
            rw [hf] at hids
            cases r2 <;> simpa [ConnStep.sent] using hids
        | Close => simp [ForwardConnect.handleMsg, ConnStep.sent, connectIds]
        | Error e1 => simp [ForwardConnect.handleMsg, ConnStep.sent, connectIds]
        | Offer a => simp [ForwardConnect.handleMsg, ConnStep.sent, connectIds]
        | Connect t cid =>
            simp [ForwardConnect.handleMsg, ConnStep.sent, connectIds]
        | Transit hints =>
            simp [ForwardConnect.handleMsg, ConnStep.sent, connectIds]
        | Unknown => simp [ForwardConnect.handleMsg, ConnStep.sent, connectIds]
  | back item =>
      rcases item with ⟨cid, pl⟩
      cases pl with
      | some payload =>
          simp [ForwardConnect.step, ForwardConnect.handleBackchannel,
            ConnStep.sent, connectIds]
      | none =>
          simp only [ForwardConnect.step, ForwardConnect.handleBackchannel]
          rcases hf : st.remove_connection cid true with ⟨s2, r2⟩
          have hids := (connRemove_props st cid true).2.1
          rw [hf] at hids
          cases r2 <;> simpa [ConnStep.sent] using hids

/-- A loop break (`Close`) sends no `Connect` message in its final step. -/
theorem conn_step_closed_ids (st : ForwardConnect) (e : ConnEvent)
    (sent : List PeerMessage) (h : st.step e = ConnStep.closed sent) :
    connectIds sent = [] := by
  cases e with
  | accept t => simp [ForwardConnect.step, ForwardConnect.spawn_connection] at h
  | msg raw wk =>
      have hs := conn_step_sent_ids st (ConnEvent.msg raw wk)
        (fun t hc => ConnEvent.noConfusion hc)
      rw [h] at hs
      simpa [ConnStep.sent] using hs
  | back item =>
      have hs := conn_step_sent_ids st (ConnEvent.back item)
        (fun t hc => ConnEvent.noConfusion hc)
      rw [h] at hs
      simpa [ConnStep.sent] using hs

/-- A failing step sends no `Connect` message in its final step. -/
theorem conn_step_failed_ids (st : ForwardConnect) (e : ConnEvent)
    (er : ForwardingError) (sent : List PeerMessage)
    (h : st.step e = ConnStep.failed er sent) :
    connectIds sent = [] := by
  cases e with
  | accept t => simp [ForwardConnect.step, ForwardConnect.spawn_connection] at h
  | msg raw wk =>
      have hs := conn_step_sent_ids st (ConnEvent.msg raw wk)
        (fun t hc => ConnEvent.noConfusion hc)
      rw [h] at hs
      simpa [ConnStep.sent] using hs
  | back item =>
      have hs := conn_step_sent_ids st (ConnEvent.back item)
        (fun t hc => ConnEvent.noConfusion hc)
      rw [h] at hs
      simpa [ConnStep.sent] using hs

/-- Unfolding `runConn` over a continuing step. -/
theorem runConn_cons_next (st : ForwardConnect) (e : ConnEvent)
    (es : List ConnEvent) (st' : ForwardConnect) (sent : List PeerMessage)
    (h : st.step e = ConnStep.next st' sent) :
    runConn st (e :: es) = ((runConn st' es).1, sent ++ (runConn st' es).2) := by
  simp only [runConn, h]

/-- Unfolding `runConn` over a loop break. -/
theorem runConn_cons_closed (st : ForwardConnect) (e : ConnEvent)
    (es : List ConnEvent) (sent : List PeerMessage)
    (h : st.step e = ConnStep.closed sent) :
    runConn st (e :: es) = (st, sent) := by
  simp only [runConn, h]

/-- Unfolding `runConn` over a failing step. -/
theorem runConn_cons_failed (st : ForwardConnect) (e : ConnEvent)
    (es : List ConnEvent) (er : ForwardingError) (sent : List PeerMessage)
    (h : st.step e = ConnStep.failed er sent) :
    runConn st (e :: es) = (st, sent) := by
  simp only [runConn, h]

/-- `connectIds` distributes over list append. -/
theorem connectIds_append (xs ys : List PeerMessage) :
    connectIds (xs ++ ys) = connectIds xs ++ connectIds ys :=
  List.filterMap_append ..

/-- The ids of the `Connect` messages emitted over a run are exactly the
counter values from the initial to the final counter, in order. -/
theorem runConn_ids (evs : List ConnEvent) (st : ForwardConnect) :
    st.connection_counter ≤ (runConn st evs).1.connection_counter ∧
    connectIds (runConn st evs).2 =
      List.range' st.connection_counter
        ((runConn st evs).1.connection_counter - st.connection_counter) := by
  induction evs generalizing st with
  | nil => simp [runConn, connectIds]
  | cons e es ih =>
      rcases hstep : st.step e with ⟨st', sent⟩ | sent | ⟨er, sent⟩
      · rw [runConn_cons_next st e es st' sent hstep]
        obtain ⟨hle, hids⟩ := ih st'
        rcases conn_step_next st e st' sent hstep with ⟨hids0, hc, -⟩ |
          ⟨hids1, hc, -⟩
        · rw [hc] at hids hle
          refine ⟨hle, ?_⟩
          show connectIds (sent ++ (runConn st' es).2) = _
          rw [connectIds_append, hids0, hids]
          simp
        · rw [hc] at hids hle
          refine ⟨?_, ?_⟩
          · show st.connection_counter ≤ (runConn st' es).1.connection_counter
            omega
          show connectIds (sent ++ (runConn st' es).2) = _
          rw [connectIds_append, hids1, hids]
          have h1 : (runConn st' es).1.connection_counter -
              st.connection_counter =
              ((runConn st' es).1.connection_counter -
                (st.connection_counter + 1)) + 1 := by
            omega
          rw [h1, List.range'_succ]
          simp
      · rw [runConn_cons_closed st e es sent hstep]
        have hce := conn_step_closed_ids st e sent hstep
        exact ⟨le_refl _, by simpa using hce⟩
      · rw [runConn_cons_failed st e es er sent hstep]
        have hce := conn_step_failed_ids st e er sent hstep
        exact ⟨le_refl _, by simpa using hce⟩

/-- The listener-side counter bounds every live connection id, across any
run. -/
theorem runConn_connections_lt (evs : List ConnEvent) (st : ForwardConnect)
    (hinv : ∀ i ∈ st.connections, i < st.connection_counter) :
    ∀ i ∈ (runConn st evs).1.connections,
      i < (runConn st evs).1.connection_counter := by
  induction evs generalizing st with
  | nil => simpa [runConn] using hinv
  | cons e es ih =>
      rcases hstep : st.step e with ⟨st', sent⟩ | sent | ⟨er, sent⟩
      · rw [runConn_cons_next st e es st' sent hstep]
        have hinv2 : ∀ i ∈ st'.connections, i < st'.connection_counter := by
          rcases conn_step_next st e st' sent hstep with ⟨-, hc, hs⟩ |
            ⟨-, hc, hs⟩
          · intro i hi
            rw [hc]
            exact hinv i (hs hi)
          · intro i hi
            rw [hc]
            rw [hs] at hi
            rcases Finset.mem_insert.mp hi with rfl | hi
            · omega
            · have := hinv i hi
              omega
        exact ih st' hinv2
      · rw [runConn_cons_closed st e es sent hstep]
        exact hinv
      · rw [runConn_cons_failed st e es er sent hstep]
        exact hinv

/-- C5: over every event sequence of a listener session, the
`Connect.connection_id` values sent to the peer are exactly `0, 1, 2, …` in
order — strictly increasing and starting at 0 — and every id in the
connections map stays strictly below `connection_counter`. -/
theorem listener_id_monotonic (evs : List ConnEvent) :
    connectIds (runConn connInit evs).2 =
      List.range ((runConn connInit evs).1.connection_counter) ∧
    List.Chain' (fun a b => a < b) (connectIds (runConn connInit evs).2) ∧
    (connectIds (runConn connInit evs).2 ≠ [] →
      (connectIds (runConn connInit evs).2).head? = some 0) ∧
    (∀ i ∈ (runConn connInit evs).1.connections,
      i < (runConn connInit evs).1.connection_counter) := by
  obtain ⟨-, hids⟩ := runConn_ids evs connInit
  have hrange : connectIds (runConn connInit evs).2 =
      List.range ((runConn connInit evs).1.connection_counter) := by
    rw [hids]
    show List.range' 0 ((runConn connInit evs).1.connection_counter - 0) = _
    rw [Nat.sub_zero]
    exact (List.range_eq_range' _).symm
  refine ⟨hrange, ?_, ?_, ?_⟩
  · rw [hrange]
    exact (List.pairwise_lt_range _).chain'
  · intro hne
    rw [hrange]
    rcases hn : (runConn connInit evs).1.connection_counter with - | n
    · rw [hrange, hn] at hne
      simp at hne
    · simp [List.range_succ_eq_map]
  · exact runConn_connections_lt evs connInit (by simp [connInit])

/-- Connect-side transit steps never send an `Error` message. -/
theorem connHandleMsg_sent (st : ForwardConnect) (m : PeerMessage)
    (w : Bool) : ((st.handleMsg m w).sent).countP isErrMsg = 0 := by
  cases m with
  | Forward cid p =>
      simp only [ForwardConnect.handleMsg]
      rcases hf : st.forward cid w with ⟨s2, r2⟩
      have hs := (connForward_props st cid w).1
      rw [hf] at hs
      cases r2 <;> simpa [ConnStep.sent] using hs
  | Disconnect cid =>
      simp only [ForwardConnect.handleMsg]
      rcases hf : st.remove_connection cid false with ⟨s2, r2⟩
      have hs := (connRemove_props st cid false).1
      rw [hf] at hs
      cases r2 <;> simpa [ConnStep.sent] using hs
  | Close => simp [ForwardConnect.handleMsg, ConnStep.sent]
  | Error e => simp [ForwardConnect.handleMsg, ConnStep.sent]
  | Offer a => simp [ForwardConnect.handleMsg, ConnStep.sent]
  | Connect t cid => simp [ForwardConnect.handleMsg, ConnStep.sent]
  | Transit hints => simp [ForwardConnect.handleMsg, ConnStep.sent]
  | Unknown => simp [ForwardConnect.handleMsg, ConnStep.sent]

/-- A connect-side raw-frame step never sends an `Error` message. -/
theorem connRaw_sent (st : ForwardConnect) (raw : MP) (w : Bool) :
    ((st.handleRaw raw w).sent).countP isErrMsg = 0 := by
  unfold ForwardConnect.handleRaw
  rcases PeerMessage.de_msgpack raw with e | m
  · simp [ConnStep.sent]
  · exact connHandleMsg_sent st m w

/-- A connect-side back-channel step never sends an `Error` message. -/
theorem connBack_sent (st : ForwardConnect) (item : ℕ × Option (List ℕ)) :
    ((st.handleBackchannel item).sent).countP isErrMsg = 0 := by
  rcases item with ⟨cid, pl⟩
  cases pl with
  | some payload =>
      simp [ForwardConnect.handleBackchannel, ConnStep.sent, isErrMsg]
  | none =>
      simp only [ForwardConnect.handleBackchannel]
      rcases hf : st.remove_connection cid true with ⟨s2, r2⟩
      have hs := (connRemove_props st cid true).1
      rw [hf] at hs
      cases r2 <;> simpa [ConnStep.sent] using hs

/-- A local accept sends a `Connect` message, not an `Error` message. -/
theorem connAccept_sent (st : ForwardConnect) (t : String) :
    ((st.step (ConnEvent.accept t)).sent).countP isErrMsg = 0 := by
  simp [ForwardConnect.step, ForwardConnect.spawn_connection, ConnStep.sent,
    isErrMsg]

/-- C4: for both roles, a loop result that is a non-PeerError failure makes
the role write exactly one `Error` message to the transit sink before
returning that error, while a PeerError (or success) writes zero; the
returned result is the loop result whether or not the echo send succeeds
(its failure is suppressed); and no loop step of either role ever writes an
`Error` message itself. -/
theorem error_echo (r : Except ForwardingError Unit) (ok w d : Bool)
    (stS : ForwardingServe) (stC : ForwardConnect) (raw : MP)
    (item : ℕ × Option (List ℕ)) (target : String) :
    ((serveEcho true r).1.countP isErrMsg =
      if nonPeerFailure r then 1 else 0) ∧
    ((connectEcho true r).1.countP isErrMsg =
      if nonPeerFailure r then 1 else 0) ∧
    ((serveEcho ok r).2 = r) ∧
    ((connectEcho ok r).2 = r) ∧
    ((stS.handleRaw raw w d).sent.countP isErrMsg = 0) ∧
    ((stS.handleBackchannel item).sent.countP isErrMsg = 0) ∧
    ((stC.handleRaw raw w).sent.countP isErrMsg = 0) ∧
    ((stC.handleBackchannel item).sent.countP isErrMsg = 0) ∧
    ((stC.step (ConnEvent.accept target)).sent.countP isErrMsg = 0) := by
  refine ⟨?_, ?_, ?_, ?_, serveRaw_sent stS raw w d, serveBack_sent stS item,
    connRaw_sent stC raw w, connBack_sent stC item, connAccept_sent stC target⟩
  · cases r with
    | ok u => simp [serveEcho, nonPeerFailure]
    | error e => cases e <;> simp [serveEcho, nonPeerFailure, isErrMsg]
  · cases r with
    | ok u => simp [connectEcho, nonPeerFailure]
    | error e => cases e <;> simp [connectEcho, nonPeerFailure, isErrMsg]
  · cases r with
    | ok u => simp [serveEcho]
    | error e => cases e <;> cases ok <;> simp [serveEcho]
  · cases r with
    | ok u => simp [connectEcho]
    | error e => cases e <;> cases ok <;> simp [connectEcho]

end Wormhole
